import Mathlib

/-!
Shallow embedding of the speech-to-text-tools repository
(src/audio_splitter.py, src/video_converter.py, src/transcribe.py).

Filesystem state (which paths exist, directory listings, file contents)
is passed explicitly as parameters; external processes (ffmpeg, ffprobe,
Whisper) are modelled by their observable result, supplied as a parameter.
Python strings are modelled as Lean `String` (lists of Unicode scalar
values, matching Python's code-point semantics for comparison, `lower`,
`startswith`, `endswith`).
-/

/- ## Python string primitives used by the scripts -/

/-- Model of Python `str.lower` (the scripts only lowercase ASCII
extension text, where `Char.toLower` agrees with Python). -/
def pyLower (s : String) : String := ⟨s.data.map Char.toLower⟩

/-- Model of Python `str.endswith`. -/
def strEnds (suf s : String) : Bool := suf.data.isSuffixOf s.data

/-- Model of Python `str.startswith`. -/
def strStarts (p s : String) : Bool := p.data.isPrefixOf s.data

/-- Contiguous-substring check on character lists. -/
def containsSub (sub : List Char) : List Char → Bool
  | [] => sub.isEmpty
  | c :: rest => sub.isPrefixOf (c :: rest) || containsSub sub rest

/-- Model of Python `sub in s` substring containment. -/
def strContains (sub s : String) : Bool := containsSub sub.data s.data

/-- Model of Python `str(bool)`. -/
def pyStrOfBool (b : Bool) : String := if b then "True" else "False"

/-- Model of `os.path.join` for the cases exercised by the scripts
(joining a directory with a bare filename). -/
def pyJoin (dir name : String) : String :=
  if dir = "" then name else dir ++ "/" ++ name

/-- Index of the last occurrence of a character in a character list. -/
def lastIdxOf (c : Char) (l : List Char) : Option Nat :=
  match l.reverse.findIdx? (fun x => x == c) with
  | none => none
  | some j => some (l.length - 1 - j)

/-- Model of `os.path.basename` for slash-separated paths. -/
def pyBasename (p : String) : String :=
  match lastIdxOf '/' p.data with
  | none => p
  | some i => ⟨p.data.drop (i + 1)⟩

/-- Model of `os.path.dirname` for slash-separated paths. -/
def pyDirname (p : String) : String :=
  match lastIdxOf '/' p.data with
  | none => ""
  | some i => ⟨p.data.take i⟩

/-- Base part of `os.path.splitext`: cut at the last dot provided some
character before that dot is not itself a dot (CPython's rule, so that
dotfiles such as `.bashrc` keep their full name). -/
def splitextBase (f : String) : String :=
  match lastIdxOf '.' f.data with
  | none => f
  | some i => if (f.data.take i).any (fun c => c ≠ '.') then ⟨f.data.take i⟩ else f

/-- Model of Python `format(n, "03d")`: decimal digits, zero-padded on
the left to a minimum width of 3. -/
def pad3 (n : Nat) : String :=
  let s := toString n
  if s.length < 3 then ⟨List.replicate (3 - s.length) '0'⟩ ++ s else s

/-- Model of Python `str.strip` for the ASCII whitespace that occurs in
Whisper segment text. -/
def pyStrip (s : String) : String :=
  let ws : Char → Bool := fun c => c == ' ' || c == '\t' || c == '\n' || c == '\r'
  ⟨((s.data.dropWhile ws).reverse.dropWhile ws).reverse⟩

/-- Lexicographic order on character lists by code point, the order
Python uses to compare strings (and hence the order of `sorted`). -/
def pyCharListLe : List Char → List Char → Bool
  | [], _ => true
  | _ :: _, [] => false
  | a :: as, b :: bs => if a < b then true else if a = b then pyCharListLe as bs else false

/-- Model of Python string comparison `a <= b`. -/
def pyLe (a b : String) : Prop := pyCharListLe a.data b.data = true

instance : DecidableRel pyLe := fun a b =>
  inferInstanceAs (Decidable (pyCharListLe a.data b.data = true))

theorem pyCharListLe_total : ∀ as bs, pyCharListLe as bs = true ∨ pyCharListLe bs as = true := by
  intro as
  induction as with
  | nil => intro bs; left; rfl
  | cons a as ih =>
    intro bs
    cases bs with
    | nil => right; rfl
    | cons b bs =>
      rcases lt_trichotomy a b with hlt | heq | hgt
      · left
        simp [pyCharListLe, hlt]
      · subst heq
        rcases ih bs with h | h
        · left
          simp [pyCharListLe, lt_irrefl, h]
        · right
          simp [pyCharListLe, lt_irrefl, h]
      · right
        simp [pyCharListLe, hgt]

theorem pyCharListLe_trans : ∀ as bs cs, pyCharListLe as bs = true →
    pyCharListLe bs cs = true → pyCharListLe as cs = true := by
  intro as
  induction as with
  | nil => intro bs cs _ _; rfl
  | cons a as ih =>
    intro bs cs h1 h2
    cases bs with
    | nil => simp [pyCharListLe] at h1
    | cons b bs =>
      cases cs with
      | nil => simp [pyCharListLe] at h2
      | cons c cs =>
        simp only [pyCharListLe] at h1 h2 ⊢
        by_cases hab : a < b
        · by_cases hbc : b < c
          · simp [lt_trans hab hbc]
          · simp only [if_pos hab, if_neg hbc] at h2 ⊢
            by_cases hbec : b = c
            · subst hbec
              simp [hab]
            · simp [hbec] at h2
        · simp only [if_neg hab] at h1
          by_cases haeb : a = b
          · subst haeb
            simp only [if_pos rfl] at h1
            by_cases hac : a < c
            · simp [hac]
            · simp only [if_neg hac] at h2 ⊢
              by_cases haec : a = c
              · simp only [if_pos haec] at h2 ⊢
                exact ih bs cs h1 h2
              · simp [haec] at h2
          · simp [haeb] at h1

instance : IsTotal String pyLe := ⟨fun a b => pyCharListLe_total a.data b.data⟩

instance : IsTrans String pyLe :=
  ⟨fun a b c hab hbc => pyCharListLe_trans a.data b.data c.data hab hbc⟩

/- ## audio_splitter.py -/

/-- The `.m4a` / `.opus` allow-list check used by `audio_splitter.py`
and `transcribe.py`: `file.lower().endswith((".m4a", ".opus"))`. -/
def hasAudioExt (f : String) : Bool :=
  strEnds ".m4a" (pyLower f) || strEnds ".opus" (pyLower f)

/-- One ffmpeg extraction performed by `split_audio_file`: start offset
(`-ss`), requested length (`-t`) and the output path's filename. -/
structure SegmentCall where
  start : Nat
  len : Nat
  output : String
deriving DecidableEq

/-- Number of segments computed by `split_audio_file`:
`math.ceil(duration / segment_length)`, with the ffprobe duration
modelled as a rational number of seconds. -/
def num_segments (duration : ℚ) (segment_length : Nat) : Nat :=
  (⌈duration / (segment_length : ℚ)⌉).toNat

/-- Model of `split_audio_file` (src/audio_splitter.py lines 41-80): the
ordered list of ffmpeg invocations it performs. The source consults no
filesystem state before invoking ffmpeg (no existence check, no force
flag; `-y` overwrites unconditionally), so the call list depends only on
the probed duration, the segment length, the base name and the format. -/
def split_audio_file (base_name : String) (duration : ℚ) (segment_length : Nat)
    (output_format : String) : List SegmentCall :=
  (List.range (num_segments duration segment_length)).map fun i =>
    ⟨i * segment_length, segment_length,
      base_name ++ "_part" ++ pad3 (i + 1) ++ "." ++ output_format⟩

/-- Directory scan of `audio_splitter.main` (lines 139-143): files kept
in `os.listdir` enumeration order, filtered by the audio allow-list,
joined onto the input folder. No sorting is performed. -/
def splitterDirFiles (input_folder : String) (entries : List String) : List String :=
  (entries.filter hasAudioExt).map (pyJoin input_folder)

/-- Path the splitter resolves an explicit `--file` argument to
(lines 121-126): taken verbatim when it already names a file, otherwise
joined onto the input folder. -/
def splitterResolvedPath (isfile : String → Bool) (input_folder file : String) : String :=
  if isfile file then file else pyJoin input_folder file

/-- Explicit-file branch of `audio_splitter.main` (lines 120-138):
either the singleton list of files to process, or the fatal error
message printed before returning with nothing processed. -/
def splitterResolveExplicit (isfile : String → Bool) (input_folder file : String) :
    Except String (List String) :=
  let file_path := splitterResolvedPath isfile input_folder file
  if isfile file_path then
    if hasAudioExt file_path then Except.ok [file_path]
    else Except.error ("Error: File " ++ file_path ++
      " is not a supported audio format (.m4a or .opus).")
  else Except.error ("Error: File " ++ file_path ++ " not found.")

/-- Concrete evaluation of the segment count for a 1450-second item
split into 600-second segments. -/
theorem num_segments_1450_600 : num_segments 1450 600 = 3 := by
  have h : (⌈(1450 : ℚ) / ((600 : Nat) : ℚ)⌉ : ℤ) = 3 := by
    rw [Int.ceil_eq_iff]
    constructor <;> norm_num
  unfold num_segments
  rw [h]
  rfl

example : pad3 1 = "001" := by decide
example : hasAudioExt "A.M4A" = true := by decide
example : splitextBase "a.b.txt" = "a.b" := by decide
example : splitextBase ".bashrc" = ".bashrc" := by decide
example :
    split_audio_file "rec" 1450 600 "m4a" =
      [⟨0, 600, "rec_part001.m4a"⟩, ⟨600, 600, "rec_part002.m4a"⟩,
        ⟨1200, 600, "rec_part003.m4a"⟩] := by
  simp only [split_audio_file, num_segments_1450_600]
  decide

/- ## video_converter.py -/

/-- The `VIDEO_EXTENSIONS` tuple of `video_converter.py`. -/
def VIDEO_EXTENSIONS : List String :=
  [".mp4", ".mov", ".avi", ".mkv", ".webm", ".flv", ".wmv", ".m4v", ".mpg", ".mpeg"]

/-- The converter's allow-list check: `path.lower().endswith(VIDEO_EXTENSIONS)`. -/
def hasVideoExt (f : String) : Bool :=
  VIDEO_EXTENSIONS.any (fun e => strEnds e (pyLower f))

/-- Codec table of `get_audio_codec`, defaulting to `aac`. -/
def get_audio_codec (output_format : String) : String :=
  if output_format = "m4a" then "aac"
  else if output_format = "mp3" then "libmp3lame"
  else if output_format = "opus" then "libopus"
  else if output_format = "wav" then "pcm_s16le"
  else "aac"

/-- Observable result of the `subprocess.run` ffmpeg call inside
`convert_video_to_audio`: an exit code, a raised `FileNotFoundError`
(ffmpeg missing), or another raised exception. -/
inductive RunResult where
  | exit (code : ℤ)
  | raisedNotFound
  | raisedOther (msg : String)
deriving DecidableEq

/-- What one call of `convert_video_to_audio` did: whether ffmpeg was
invoked, the boolean return value, and whether the skip message was
printed. -/
structure ConvertOutcome where
  invoked : Bool
  retval : Bool
  printedSkipping : Bool
deriving DecidableEq

/-- Output path computed by `convert_video_to_audio`:
`os.path.join(output_dir, base_name + "." + output_format)`. -/
def convertOutputPath (output_dir video_path output_format : String) : String :=
  pyJoin output_dir (splitextBase (pyBasename video_path) ++ "." ++ output_format)

/-- Model of `convert_video_to_audio` (src/video_converter.py lines
46-118). `existsOut` is `os.path.exists(output_path)` at entry; `run` is
the ffmpeg call's result. With the output present and `force` false the
function prints the skip message and returns `True` without invoking
ffmpeg; otherwise it invokes ffmpeg and returns `True` exactly when the
exit code is 0, with every raised exception caught and turned into
`False`. -/
def convert_video_to_audio (existsOut force : Bool) (run : RunResult) : ConvertOutcome :=
  if existsOut && !force then ⟨false, true, true⟩
  else
    match run with
    | RunResult.exit code => ⟨true, code == 0, false⟩
    | RunResult.raisedNotFound => ⟨true, false, false⟩
    | RunResult.raisedOther _ => ⟨true, false, false⟩

/-- Status counters accumulated by `video_converter.main`. -/
structure Counts where
  successful : Nat
  failed : Nat
  skipped : Nat
deriving DecidableEq

/-- One counting step of the loop in `video_converter.main` (lines
248-259), modelled verbatim: on a truthy result it tests
`not force and "Skipping" in str(result)` — where `result` is the
boolean return value — to decide between the skipped and successful
counters, and otherwise increments the failed counter. -/
def mainCountStep (force : Bool) (c : Counts) (retval : Bool) : Counts :=
  if retval then
    if !force && strContains "Skipping" (pyStrOfBool retval) then
      ⟨c.successful, c.failed, c.skipped + 1⟩
    else ⟨c.successful + 1, c.failed, c.skipped⟩
  else ⟨c.successful, c.failed + 1, c.skipped⟩

/-- The per-file loop of `video_converter.main` (lines 239-259): in list
order, convert each file and update the counters; also collect the
per-item outcomes in processing order (the order in which the script
prints each item's message). -/
def convertMainLoop (existsOut : String → Bool) (force : Bool) (run : String → RunResult)
    (output_dir output_format : String) (acc : Counts) :
    List String → Counts × List (String × ConvertOutcome)
  | [] => (acc, [])
  | f :: rest =>
    let o := convert_video_to_audio (existsOut (convertOutputPath output_dir f output_format))
      force (run f)
    let r := convertMainLoop existsOut force run output_dir output_format
      (mainCountStep force acc o.retval) rest
    (r.1, (f, o) :: r.2)

/-- End-of-run summary printed by `video_converter.main` (lines
262-273): total, the `Converted` count, the `Skipped` line (printed only
when the skipped counter is positive, showing
`total - successful - failed`), and the `Failed` line (printed only when
the failed counter is positive). -/
structure ConvSummary where
  total : Nat
  converted : Nat
  skippedShown : Option Nat
  failedShown : Option Nat
deriving DecidableEq

/-- Builds the printed summary from the final counters. -/
def mkSummary (total : Nat) (c : Counts) : ConvSummary :=
  ⟨total, c.successful,
    if 0 < c.skipped then some (total - c.successful - c.failed) else none,
    if 0 < c.failed then some c.failed else none⟩

/-- File branch of `get_video_files` (lines 134-140): an explicit path
that is a file is kept only when its extension is allowed; otherwise an
error is printed and the empty list is returned. -/
def get_video_files_file (path : String) : List String :=
  if hasVideoExt path then [path] else []

/-- Directory branch of `get_video_files` without a specific file
(lines 156-158): `sorted(os.listdir(path))` filtered by the video
allow-list. The filenames kept, before joining onto the directory. -/
def videoDirNames (entries : List String) : List String :=
  (List.insertionSort pyLe entries).filter hasVideoExt

/-- Full directory discovery of `get_video_files`: sorted, filtered,
joined onto the directory. -/
def get_video_files_dir (path : String) (entries : List String) : List String :=
  (videoDirNames entries).map (pyJoin path)

example : strContains "Skipping" (pyStrOfBool true) = false := by decide
example : (convert_video_to_audio true false (RunResult.exit 0)).invoked = false := by decide
example :
    (convertMainLoop (fun _ => true) false (fun _ => RunResult.exit 0) "out" "m4a"
      ⟨0, 0, 0⟩ ["a.mp4"]).1 = ⟨1, 0, 0⟩ := by decide

/- ## transcribe.py -/

/-- Per-item classification in the transcription folder loop. -/
inductive TStatus where
  | skippedT
  | succeededT
deriving DecidableEq

/-- One item's record in the transcription folder loop: its filename,
its classification, and whether the Whisper engine was invoked for it. -/
structure TRecord where
  name : String
  status : TStatus
  invoked : Bool
deriving DecidableEq

/-- Model of the per-file loop of `transcribe_folder` (src/transcribe.py
lines 226-311) in plain transcription mode (`unify` off; the existing-
transcript skip and the exception path, lines 232-252 and 305-311, are
the same in both modes). `hasT` is the `os.path.exists(txt_path)` check;
`op` is the Whisper `model.transcribe` call, returning the transcript
text or the raised exception. A raised failure stops the heartbeat and
is re-raised, aborting the whole loop; an existing transcript is skipped
without invoking the engine. -/
def transcribe_folder_loop (hasT : String → Bool) (op : String → Except String String) :
    List String → Except String (List TRecord)
  | [] => Except.ok []
  | f :: rest =>
    if hasT f then
      match transcribe_folder_loop hasT op rest with
      | Except.ok l => Except.ok (⟨f, TStatus.skippedT, false⟩ :: l)
      | Except.error e => Except.error e
    else
      match op f with
      | Except.error e => Except.error e
      | Except.ok _t =>
        match transcribe_folder_loop hasT op rest with
        | Except.ok l => Except.ok (⟨f, TStatus.succeededT, true⟩ :: l)
        | Except.error e => Except.error e

/-- Observable outcome of `transcribe_single_file`: whether the
unsupported-format warning was printed, whether Whisper was invoked, the
transcript path returned, and the transcript text written (none when an
existing transcript was reused). -/
structure SingleOutcome where
  warned : Bool
  invoked : Bool
  txt_path : String
  written : Option String
deriving DecidableEq

/-- Model of `transcribe_single_file` (src/transcribe.py lines 38-122).
A missing file raises `FileNotFoundError`; an unsupported extension only
prints a warning and transcription proceeds anyway; an existing
transcript is returned without invoking Whisper; otherwise the engine
result's segments are stripped and joined with single newlines and
written, and a raised engine failure is re-raised to the caller. -/
def transcribe_single_file (isfile : Bool) (file_path : String) (txtExists : Bool)
    (op : Except String (List String)) : Except String SingleOutcome :=
  if !isfile then Except.error ("File not found: " ++ file_path)
  else
    let warned := !hasAudioExt file_path
    let txt_path := pyJoin (pyDirname file_path)
      (splitextBase (pyBasename file_path) ++ ".txt")
    if txtExists then Except.ok ⟨warned, false, txt_path, none⟩
    else
      match op with
      | Except.error e => Except.error e
      | Except.ok segs =>
        Except.ok ⟨warned, true, txt_path,
          some (String.intercalate "\n" (segs.map pyStrip))⟩

/-- Candidate filter of `unify_transcripts` (src/transcribe.py line
127): `f.lower().endswith(".txt") and not f.startswith("unified_transcript")`. -/
def isCandidateTranscript (f : String) : Bool :=
  strEnds ".txt" (pyLower f) && !strStarts "unified_transcript" f

/-- The sort-direction suffix of the aggregate filename (line 177):
`"_desc" if sort_order.lower() == "desc" else "_asc"`. -/
def sortSuffix (sort_order : String) : String :=
  if pyLower sort_order = "desc" then "_desc" else "_asc"

/-- Aggregate document filename (lines 176-178):
`unified_transcript{sort_suffix}_{timestamp}.txt`. -/
def unified_file_name (sort_order timestamp : String) : String :=
  "unified_transcript" ++ sortSuffix sort_order ++ "_" ++ timestamp ++ ".txt"

/-- Sort key order used by `unify_transcripts` and `transcribe_folder`:
ascending by `os.path.splitext(x)[0]`, in Python string order. -/
def baseLe (a b : String) : Prop := pyLe (splitextBase a) (splitextBase b)

/-- Reverse of the base-name order, for `reverse=True` sorting. -/
def baseGe (a b : String) : Prop := pyLe (splitextBase b) (splitextBase a)

instance : DecidableRel baseLe := fun a b =>
  inferInstanceAs (Decidable (pyLe (splitextBase a) (splitextBase b)))

instance : DecidableRel baseGe := fun a b =>
  inferInstanceAs (Decidable (pyLe (splitextBase b) (splitextBase a)))

instance : IsTotal String baseLe :=
  ⟨fun a b => pyCharListLe_total (splitextBase a).data (splitextBase b).data⟩

instance : IsTotal String baseGe :=
  ⟨fun a b => pyCharListLe_total (splitextBase b).data (splitextBase a).data⟩

instance : IsTrans String baseLe :=
  ⟨fun _ _ _ hab hbc => pyCharListLe_trans _ _ _ hab hbc⟩

instance : IsTrans String baseGe :=
  ⟨fun _ _ _ hab hbc => pyCharListLe_trans _ _ _ hbc hab⟩

/-- Model of Python
`sorted(files, key=lambda x: os.path.splitext(x)[0], reverse=reverse)`
(lines 134-135 and 215-216): a stable sort by base name, ascending, or
descending when the order argument lowercases to `desc`. -/
def sortByBaseOrder (sort_order : String) (files : List String) : List String :=
  if pyLower sort_order = "desc" then List.insertionSort baseGe files
  else List.insertionSort baseLe files

/-- One section of the unified document: the probed original audio
filename (or `Unknown`), the base name, the transcript body, and the
duration (always 0 for pre-existing transcripts). -/
structure TSection where
  filename : String
  base_name : String
  transcript : String
  duration : Nat
deriving DecidableEq

/-- Best-effort probe for the original audio file (lines 148-159):
`base.m4a` if it exists in the folder, else `base.opus`, else
`Unknown`. -/
def probeOriginal (audioEx : String → Bool) (base : String) : String :=
  if audioEx (base ++ ".m4a") then base ++ ".m4a"
  else if audioEx (base ++ ".opus") then base ++ ".opus"
  else "Unknown"

/-- The section built from one readable transcript file. -/
def mkTSection (audioEx : String → Bool) (filename transcript : String) : TSection :=
  ⟨probeOriginal audioEx (splitextBase filename), splitextBase filename, transcript, 0⟩

/-- Reading loop of `unify_transcripts` (lines 141-169): each candidate
is read; a raised read error is printed and the candidate is omitted,
and the loop continues with the next candidate. -/
def readLoop (readF : String → Except String String) (audioEx : String → Bool) :
    List String → List TSection
  | [] => []
  | f :: rest =>
    match readF f with
    | Except.error _ => readLoop readF audioEx rest
    | Except.ok t => mkTSection audioEx f t :: readLoop readF audioEx rest

/-- Model of `unify_transcripts` (src/transcribe.py lines 124-189):
filter the folder listing to candidate transcripts, return with no
document when none exist, otherwise sort by base name, read each
candidate (omitting unreadable ones), return with no document when no
candidate was readable, and otherwise write the timestamped unified
document, modelled as its filename paired with its ordered sections. -/
def unify_transcripts (entries : List String) (readF : String → Except String String)
    (audioEx : String → Bool) (sort_order timestamp : String) :
    Option (String × List TSection) :=
  let txt_files := entries.filter isCandidateTranscript
  if txt_files.isEmpty then none
  else
    let sorted_files := sortByBaseOrder sort_order txt_files
    let secs := readLoop readF audioEx sorted_files
    if secs.isEmpty then none
    else some (unified_file_name sort_order timestamp, secs)

/-- The readable candidates of a file list, in order, as sections. -/
def readableSections (readF : String → Except String String) (audioEx : String → Bool)
    (files : List String) : List TSection :=
  files.filterMap fun f =>
    match readF f with
    | Except.ok t => some (mkTSection audioEx f t)
    | Except.error _ => none

example : isCandidateTranscript "a.TXT" = true := by decide
example : isCandidateTranscript "unified_transcript_asc_1.txt" = false := by decide
example : unified_file_name "asc" "20250101_120000" =
    "unified_transcript_asc_20250101_120000.txt" := by decide
example : sortByBaseOrder "asc" ["b.txt", "a.txt"] = ["a.txt", "b.txt"] := by decide
example : sortByBaseOrder "desc" ["a.txt", "b.txt"] = ["b.txt", "a.txt"] := by decide

/- ## Helper lemmas -/

theorem isPrefixOf_append_self (l r : List Char) : l.isPrefixOf (l ++ r) = true := by
  induction l with
  | nil => simp [List.isPrefixOf]
  | cons a t ih => simp [List.isPrefixOf, ih]

/-- The converter's main loop emits one outcome per input file, in the
input order. -/
theorem convertMainLoop_fst (existsOut : String → Bool) (force : Bool)
    (run : String → RunResult) (d fmt : String) (acc : Counts) (files : List String) :
    ((convertMainLoop existsOut force run d fmt acc files).2).map Prod.fst = files := by
  induction files generalizing acc with
  | nil => rfl
  | cons f rest ih => simp [convertMainLoop, ih]

/-- With `force` false and every output already present, every outcome
of the converter's main loop is the skip outcome (ffmpeg not invoked,
skip message printed, `True` returned). -/
theorem convertMainLoop_skip_all (existsOut : String → Bool) (run : String → RunResult)
    (d fmt : String) (acc : Counts) (files : List String)
    (h : ∀ f ∈ files, existsOut (convertOutputPath d f fmt) = true) :
    ∀ pr ∈ (convertMainLoop existsOut false run d fmt acc files).2,
      pr.2 = ConvertOutcome.mk false true true := by
  induction files generalizing acc with
  | nil => intro pr hpr; simp [convertMainLoop] at hpr
  | cons f rest ih =>
    intro pr hpr
    have hf : existsOut (convertOutputPath d f fmt) = true := h f (List.mem_cons_self f rest)
    have hrest : ∀ g ∈ rest, existsOut (convertOutputPath d g fmt) = true :=
      fun g hg => h g (List.mem_cons_of_mem f hg)
    simp only [convertMainLoop, List.mem_cons] at hpr
    rcases hpr with hpr | hpr
    · subst hpr
      simp [convert_video_to_audio, hf]
    · exact ih _ hrest pr hpr

/-- When every item already has a transcript, the transcription folder
loop succeeds with every item skipped and the engine never invoked. -/
theorem transcribe_folder_loop_skip_all (hasT : String → Bool)
    (op : String → Except String String) (items : List String)
    (h : ∀ f ∈ items, hasT f = true) :
    transcribe_folder_loop hasT op items =
      Except.ok (items.map fun f => TRecord.mk f TStatus.skippedT false) := by
  induction items with
  | nil => rfl
  | cons f rest ih =>
    have hf : hasT f = true := h f (List.mem_cons_self f rest)
    have hrest := ih fun g hg => h g (List.mem_cons_of_mem f hg)
    simp [transcribe_folder_loop, hf, hrest]

/-- The reading loop keeps exactly the readable candidates, in order. -/
theorem readLoop_eq_readableSections (readF : String → Except String String)
    (audioEx : String → Bool) (files : List String) :
    readLoop readF audioEx files = readableSections readF audioEx files := by
  induction files with
  | nil => rfl
  | cons f rest ih =>
    simp only [readLoop, readableSections, List.filterMap_cons]
    cases readF f with
    | error e => simpa [readableSections] using ih
    | ok t => simpa [readableSections] using congrArg (mkTSection audioEx f t :: ·) ih

theorem data_append (a b : String) : (a ++ b).data = a.data ++ b.data := rfl

theorem strData_ext {a b : String} (h : a.data = b.data) : a = b :=
  congrArg String.mk h

theorem sortByBaseOrder_nil (sort_order : String) : sortByBaseOrder sort_order [] = [] := by
  unfold sortByBaseOrder
  split <;> rfl

/-- The reading loop produces nothing exactly when every candidate's
read raises. -/
theorem readLoop_eq_nil_iff (readF : String → Except String String)
    (audioEx : String → Bool) (files : List String) :
    readLoop readF audioEx files = [] ↔ ∀ f ∈ files, ∃ e, readF f = Except.error e := by
  induction files with
  | nil => simp [readLoop]
  | cons f rest ih =>
    simp only [readLoop]
    cases hf : readF f with
    | error e =>
      simp only [ih, List.mem_cons]
      constructor
      · intro h g hg
        rcases hg with hg | hg
        · exact ⟨e, hg ▸ hf⟩
        · exact h g hg
      · intro h g hg
        exact h g (Or.inr hg)
    | ok t =>
      simp only [List.mem_cons]
      constructor
      · intro h
        exact absurd h (List.cons_ne_nil _ _)
      · intro h
        rcases h f (Or.inl rfl) with ⟨e, he⟩
        rw [hf] at he
        exact absurd he (by simp)

/- ## Claim theorems -/

/-- C1 counterexample: the segmentation variant is not idempotent. The
source of `split_audio_file` consults no filesystem state and has no
force flag (its model therefore takes neither as input), so even when
every `rec_partNNN.m4a` output already exists on disk, re-running the
split of a 1450-second item with 600-second segments performs three
ffmpeg invocations — not the zero invocations and Skipped
classification the claim requires. -/
theorem splitter_reinvokes_existing :
    (split_audio_file "rec" 1450 600 "m4a").map SegmentCall.start = [0, 600, 1200] ∧
    (split_audio_file "rec" 1450 600 "m4a").length ≠ 0 := by
  constructor
  · simp only [split_audio_file, num_segments_1450_600]
    decide
  · simp only [split_audio_file, num_segments_1450_600]
    decide

/-- C1 amended: idempotence holds for the transcoding and transcription
variants but not the segmentation variant. For the converter: with
`force` false and every item's output already present at its
deterministic path, every outcome of the batch is the skip outcome
(ffmpeg not invoked, skip message printed, `True` returned), so a second
identical run yields only skips and zero external invocations. For the
transcription folder loop: when every item's transcript already exists,
the loop returns all items as skipped with the engine never invoked. The
segmentation variant re-invokes ffmpeg unconditionally (see the
counterexample). -/
theorem idempotence_amended :
    (∀ (existsOut : String → Bool) (run : String → RunResult) (d fmt : String)
        (acc : Counts) (files : List String),
        (∀ f ∈ files, existsOut (convertOutputPath d f fmt) = true) →
        ∀ pr ∈ (convertMainLoop existsOut false run d fmt acc files).2,
          pr.2 = ConvertOutcome.mk false true true) ∧
    (∀ (hasT : String → Bool) (op : String → Except String String) (items : List String),
        (∀ f ∈ items, hasT f = true) →
        transcribe_folder_loop hasT op items =
          Except.ok (items.map fun f => TRecord.mk f TStatus.skippedT false)) :=
  ⟨fun existsOut run d fmt acc files h =>
      convertMainLoop_skip_all existsOut run d fmt acc files h,
    fun hasT op items h => transcribe_folder_loop_skip_all hasT op items h⟩

/-- Witness for the amended C1 theorem at a concrete two-file converter
batch with all outputs present and a concrete one-item transcription
batch with the transcript present. -/
theorem idempotence_amended_witness :
    (∀ f ∈ (["a.mp4", "b.mp4"] : List String),
        ((fun _ => true) (convertOutputPath "out" f "m4a") : Bool) = true) ∧
    (∀ pr ∈ (convertMainLoop (fun _ => true) false (fun _ => RunResult.exit 0) "out" "m4a"
        ⟨0, 0, 0⟩ ["a.mp4", "b.mp4"]).2, pr.2 = ConvertOutcome.mk false true true) ∧
    transcribe_folder_loop (fun _ => true) (fun _ => Except.ok "t") ["x.m4a"] =
      Except.ok [⟨"x.m4a", TStatus.skippedT, false⟩] :=
  ⟨fun _ _ => rfl,
    idempotence_amended.1 (fun _ => true) (fun _ => RunResult.exit 0) "out" "m4a"
      ⟨0, 0, 0⟩ ["a.mp4", "b.mp4"] (fun _ _ => rfl),
    idempotence_amended.2 (fun _ => true) (fun _ => Except.ok "t") ["x.m4a"]
      (fun _ _ => rfl)⟩

/-- C4: segmentation determinism. For every duration, positive segment
length, base name and format, `split_audio_file` performs exactly
`ceil(duration / segment_length)` extractions; extraction `i` (0-based)
starts at offset `i * segment_length`, requests `segment_length`
seconds, and writes `{base}_part{NNN}.{format}` with `NNN = i + 1`
zero-padded to width 3. In particular a 1450-second item with
600-second segments yields exactly the three parts 001, 002, 003 at
offsets 0, 600, 1200. -/
theorem split_deterministic (D : ℚ) (L : Nat) (base fmt : String) (_hL : 0 < L) :
    ((split_audio_file base D L fmt).length = (⌈D / (L : ℚ)⌉).toNat
      ∧ ∀ i (h : i < (split_audio_file base D L fmt).length),
          ((split_audio_file base D L fmt).get ⟨i, h⟩).start = i * L
          ∧ ((split_audio_file base D L fmt).get ⟨i, h⟩).len = L
          ∧ ((split_audio_file base D L fmt).get ⟨i, h⟩).output =
              base ++ "_part" ++ pad3 (i + 1) ++ "." ++ fmt)
    ∧ split_audio_file "rec" 1450 600 "m4a" =
        [⟨0, 600, "rec_part001.m4a"⟩, ⟨600, 600, "rec_part002.m4a"⟩,
          ⟨1200, 600, "rec_part003.m4a"⟩] := by
  refine ⟨⟨by simp [split_audio_file, num_segments], ?_⟩, ?_⟩
  · intro i h
    simp [split_audio_file, List.get_eq_getElem]
  · simp only [split_audio_file, num_segments_1450_600]
    decide

/-- Witness for C4 at the concrete 1450-second, 600-second-segment
input. -/
theorem split_deterministic_witness :
    0 < 600 ∧
    split_audio_file "rec" 1450 600 "m4a" =
      [⟨0, 600, "rec_part001.m4a"⟩, ⟨600, 600, "rec_part002.m4a"⟩,
        ⟨1200, 600, "rec_part003.m4a"⟩] :=
  ⟨by decide, (split_deterministic 1450 600 "rec" "m4a" (by decide)).2⟩

/-- C6: aggregate exclusion. Every aggregate document filename the
Aggregator writes starts with the reserved text `unified_transcript`,
which the candidate scan excludes, so for every sort order and
timestamp the written aggregate is never a candidate of a later
aggregation run and its text is never re-ingested. -/
theorem unified_never_candidate (s t : String) :
    isCandidateTranscript (unified_file_name s t) = false := by
  have h : strStarts "unified_transcript" (unified_file_name s t) = true := by
    unfold unified_file_name strStarts
    rw [data_append]
    exact isPrefixOf_append_self _ _
  unfold isCandidateTranscript
  rw [h]
  simp

/-- C7 counterexample: the aggregate filename is not
`unified_<sort>_<timestamp>.txt`. At sort order `asc` and timestamp
`20250101_120000` the code produces
`unified_transcript_asc_20250101_120000.txt`, which differs from the
claimed `unified_asc_20250101_120000.txt`: the literal prefix
`unified_` is followed by `transcript`, not directly by the sort
direction. -/
theorem unified_name_counterexample :
    unified_file_name "asc" "20250101_120000" =
      "unified_transcript_asc_20250101_120000.txt" ∧
    unified_file_name "asc" "20250101_120000" ≠ "unified_asc_20250101_120000.txt" := by
  constructor <;> decide

/-- C7 amended: the aggregate filename is exactly
`unified_transcript_<asc|desc>_<timestamp>.txt` — the literal prefix
`unified_transcript`, then the sort direction, then the timestamp — and
the name is injective in the timestamp, so two runs at different
timestamps never produce the same filename. -/
theorem unified_name_amended :
    (∀ t, unified_file_name "asc" t = "unified_transcript_asc_" ++ t ++ ".txt") ∧
    (∀ t, unified_file_name "desc" t = "unified_transcript_desc_" ++ t ++ ".txt") ∧
    (∀ s t₁ t₂, unified_file_name s t₁ = unified_file_name s t₂ → t₁ = t₂) := by
  refine ⟨?_, ?_, ?_⟩
  · intro t
    show "unified_transcript" ++ sortSuffix "asc" ++ "_" ++ t ++ ".txt" =
      "unified_transcript_asc_" ++ t ++ ".txt"
    rw [show sortSuffix "asc" = "_asc" from by decide]
    rw [show "unified_transcript" ++ "_asc" ++ "_" = ("unified_transcript_asc_" : String)
      from by decide]
  · intro t
    show "unified_transcript" ++ sortSuffix "desc" ++ "_" ++ t ++ ".txt" =
      "unified_transcript_desc_" ++ t ++ ".txt"
    rw [show sortSuffix "desc" = "_desc" from by decide]
    rw [show "unified_transcript" ++ "_desc" ++ "_" = ("unified_transcript_desc_" : String)
      from by decide]
  · intro s t₁ t₂ h
    unfold unified_file_name at h
    have hd := congrArg String.data h
    simp only [data_append] at hd
    have h1 := List.append_cancel_right hd
    exact strData_ext (List.append_cancel_left h1)

/-- Witness for the amended C7 theorem: the format at a concrete
timestamp, and injectivity applied at equal concrete names. -/
theorem unified_name_amended_witness :
    unified_file_name "asc" "20250102_000000" =
      "unified_transcript_asc_" ++ "20250102_000000" ++ ".txt" ∧
    ("20250102" : String) = "20250102" :=
  ⟨unified_name_amended.1 "20250102_000000",
    unified_name_amended.2.2 "asc" "20250102" "20250102" rfl⟩

/-- Engine behavior used in the C2 counterexample: raises for the
middle item of a three-item batch, succeeds elsewhere. -/
def failsOnB (f : String) : Except String String :=
  if f = "b.m4a" then Except.error "boom" else Except.ok "text"

/-- C2 counterexample: the multi-item transcription batch does not
isolate failures. With no transcripts present and the engine raising on
the second of three items, `transcribe_folder` re-raises and the whole
run aborts with that error: no result sequence covering all three items
exists, the second item is not recorded as Failed, and the third item is
never attempted — contradicting the claimed failure isolation for the
transcription variant. -/
theorem transcription_batch_aborts_on_failure :
    transcribe_folder_loop (fun _ => false) failsOnB ["a.m4a", "b.m4a", "c.m4a"] =
      Except.error "boom" := by
  rfl

/-- Run results used in the amended C2 theorem: ffmpeg exits nonzero on
the middle item of a three-item batch. -/
def convRunFailB (f : String) : RunResult :=
  if f = "b.mp4" then RunResult.exit 1 else RunResult.exit 0

/-- C2 amended: failure isolation holds for the transcoding batch —
every input file receives an outcome in input order no matter which runs
fail (`convert_video_to_audio` converts every raised error into a
`False` return), and in a concrete three-item batch whose middle ffmpeg
run fails the outcomes are success, failure, success with counters
2 converted / 1 failed. A single-item transcription that raises
propagates the error to the caller. The multi-item transcription batch,
however, also propagates instead of recording a Failed item (see the
counterexample). -/
theorem failure_semantics_amended :
    (∀ (existsOut : String → Bool) (force : Bool) (run : String → RunResult)
        (d fmt : String) (acc : Counts) (files : List String),
        ((convertMainLoop existsOut force run d fmt acc files).2).map Prod.fst = files) ∧
    (∀ (p e : String),
        transcribe_single_file true p false (Except.error e) = Except.error e) ∧
    ((convertMainLoop (fun _ => false) false convRunFailB "out" "m4a" ⟨0, 0, 0⟩
        ["a.mp4", "b.mp4", "c.mp4"]).2.map (fun pr => pr.2.retval) =
          [true, false, true] ∧
      (convertMainLoop (fun _ => false) false convRunFailB "out" "m4a" ⟨0, 0, 0⟩
        ["a.mp4", "b.mp4", "c.mp4"]).1 = ⟨2, 1, 0⟩) :=
  ⟨fun existsOut force run d fmt acc files =>
      convertMainLoop_fst existsOut force run d fmt acc files,
    fun _ _ => rfl, by decide, by decide⟩

/-- C3 counterexample: the audio splitter's directory scan is not
sorted. For a directory whose `os.listdir` enumeration yields `b.m4a`
before `a.m4a`, the scan emits the items in that filesystem order, not
the ascending name order `[a, b]` the claim requires. -/
theorem splitter_scan_not_sorted :
    splitterDirFiles "rec" ["b.m4a", "a.m4a"] = ["rec/b.m4a", "rec/a.m4a"] ∧
    splitterDirFiles "rec" ["b.m4a", "a.m4a"] ≠ ["rec/a.m4a", "rec/b.m4a"] := by
  constructor <;> decide

/-- C3 amended: only the transcoder's directory discovery sorts:
its kept filenames are ascending in Python string order and are exactly
the allow-listed entries (as a permutation), and its batch loop emits
outcomes in exactly the discovery order. The audio splitter's scan (and
the transcription scan without unify, which uses the same filter)
preserves the filesystem enumeration order of matching files without
sorting — the kept names form an order-preserving sublist of the
listing. The transcription scan is sorted by base name — ascending, or
descending on request — only when unify is requested. -/
theorem order_amended :
    (∀ entries : List String, (videoDirNames entries).Sorted pyLe) ∧
    (∀ entries : List String,
        List.Perm (videoDirNames entries) (entries.filter hasVideoExt)) ∧
    (∀ (d : String) (entries : List String),
        List.Sublist (entries.filter hasAudioExt) entries ∧
        splitterDirFiles d entries = (entries.filter hasAudioExt).map (pyJoin d)) ∧
    (∀ (existsOut : String → Bool) (force : Bool) (run : String → RunResult)
        (d fmt : String) (acc : Counts) (files : List String),
        ((convertMainLoop existsOut force run d fmt acc files).2).map Prod.fst = files) ∧
    (∀ files : List String, (sortByBaseOrder "asc" files).Sorted baseLe) ∧
    (∀ files : List String, (sortByBaseOrder "desc" files).Sorted baseGe) := by
  refine ⟨?_, ?_, ?_, ?_, ?_, ?_⟩
  · intro entries
    exact List.Pairwise.sublist (List.filter_sublist _)
      (List.sorted_insertionSort pyLe entries)
  · intro entries
    exact List.Perm.filter hasVideoExt (List.perm_insertionSort pyLe entries)
  · intro d entries
    exact ⟨List.filter_sublist entries, rfl⟩
  · intro existsOut force run d fmt acc files
    exact convertMainLoop_fst existsOut force run d fmt acc files
  · intro files
    unfold sortByBaseOrder
    rw [if_neg (by decide)]
    exact List.sorted_insertionSort baseLe files
  · intro files
    unfold sortByBaseOrder
    rw [if_pos (by decide)]
    exact List.sorted_insertionSort baseGe files

/-- C5 counterexample: an explicit single item with a disallowed
extension is not fatal for the transcription variant. For the existing
file `song.mp3` with no existing transcript and a succeeding engine,
`transcribe_single_file` does not fail with an unsupported-format error:
it prints the warning and invokes the engine anyway, writing the joined
transcript. -/
theorem transcribe_single_warns_not_fatal :
    transcribe_single_file true "song.mp3" false (Except.ok ["hello", " world "]) =
      Except.ok ⟨true, true, "song.txt", some "hello\nworld"⟩ := by
  rfl

/-- C5 amended: an explicit item with a disallowed extension is fatal —
an error with no invocation — for the splitter (whose `main` prints the
unsupported-format error and returns without processing) and the
converter (whose `get_video_files` returns no files for it), while the
single-file transcription path merely warns and still invokes the
engine. -/
theorem unsupported_explicit_amended :
    (∀ (isfile : String → Bool) (folder file : String),
        hasAudioExt (splitterResolvedPath isfile folder file) = false →
        ∀ l, splitterResolveExplicit isfile folder file ≠ Except.ok l) ∧
    (∀ p : String, hasVideoExt p = false → get_video_files_file p = []) ∧
    (∀ (p : String) (segs : List String), hasAudioExt p = false →
        ∃ o : SingleOutcome, transcribe_single_file true p false (Except.ok segs) =
            Except.ok o ∧ o.warned = true ∧ o.invoked = true) := by
  refine ⟨?_, ?_, ?_⟩
  · intro isfile folder file h l
    unfold splitterResolveExplicit
    simp only [h]
    split <;> simp
  · intro p h
    unfold get_video_files_file
    rw [h]
    simp
  · intro p segs h
    refine ⟨⟨!hasAudioExt p, true,
      pyJoin (pyDirname p) (splitextBase (pyBasename p) ++ ".txt"),
      some (String.intercalate "\n" (segs.map pyStrip))⟩, rfl, ?_, rfl⟩
    rw [h]
    rfl

/-- Witness for the amended C5 theorem at the non-audio name `x.mp3`
for the splitter, the non-video name `x.txt` for the converter, and the
non-audio name `talk.wav` for single-file transcription. -/
theorem unsupported_explicit_witness :
    hasAudioExt (splitterResolvedPath (fun _ => true) "in" "x.mp3") = false ∧
    (∀ l, splitterResolveExplicit (fun _ => true) "in" "x.mp3" ≠ Except.ok l) ∧
    hasVideoExt "x.txt" = false ∧ get_video_files_file "x.txt" = [] ∧
    (∃ o : SingleOutcome, transcribe_single_file true "talk.wav" false (Except.ok ["hi"]) =
        Except.ok o ∧ o.warned = true ∧ o.invoked = true) :=
  ⟨by decide,
    unsupported_explicit_amended.1 (fun _ => true) "in" "x.mp3" (by decide),
    by decide,
    unsupported_explicit_amended.2.1 "x.txt" (by decide),
    unsupported_explicit_amended.2.2 "talk.wav" ["hi"] (by decide)⟩

/-- C8: the converter's end-of-run summary miscounts skipped items. For
a one-file batch whose output already exists and `force` false, the item
is skipped (skip message printed, ffmpeg not invoked, `True` returned),
yet the counting loop classifies it as successful — its condition tests
the text `Skipping` against `str(True)`, which never matches — so the
final counters are 1 converted / 0 failed / 0 skipped and the summary
shows `Converted: 1` with no Skipped line, instead of counting the item
as Skipped as the claim (and the code's own comments) require. -/
theorem converter_summary_miscounts_skipped :
    (convert_video_to_audio true false (RunResult.exit 0)).printedSkipping = true ∧
    (convert_video_to_audio true false (RunResult.exit 0)).invoked = false ∧
    (convertMainLoop (fun _ => true) false (fun _ => RunResult.exit 0) "out" "m4a"
      ⟨0, 0, 0⟩ ["a.mp4"]).1 = ⟨1, 0, 0⟩ ∧
    mkSummary 1 ⟨1, 0, 0⟩ = ⟨1, 1, none, none⟩ := by
  decide

/-- C10: the Aggregator tolerates unreadable candidates. Whenever
`unify_transcripts` writes a document, that document's sections are
exactly the readable candidates — each unreadable candidate is omitted
and the remaining ones keep their sorted order — and it writes no
document exactly when every sorted candidate's read raises (in
particular when there are no candidates at all). -/
theorem unify_tolerates_unreadable (entries : List String)
    (readF : String → Except String String) (audioEx : String → Bool) (s t : String) :
    (∀ doc, unify_transcripts entries readF audioEx s t = some doc →
        doc.1 = unified_file_name s t ∧
        doc.2 = readableSections readF audioEx
          (sortByBaseOrder s (entries.filter isCandidateTranscript))) ∧
    (unify_transcripts entries readF audioEx s t = none ↔
      ∀ f ∈ sortByBaseOrder s (entries.filter isCandidateTranscript),
        ∃ e, readF f = Except.error e) := by
  unfold unify_transcripts
  by_cases hemp : (entries.filter isCandidateTranscript).isEmpty
  · rw [if_pos hemp]
    have hnil : entries.filter isCandidateTranscript = [] :=
      List.isEmpty_iff.mp hemp
    constructor
    · intro doc hdoc
      exact absurd hdoc (by simp)
    · constructor
      · intro _ f hf
        rw [hnil, sortByBaseOrder_nil] at hf
        exact absurd hf (List.not_mem_nil f)
      · intro _
        rfl
  · rw [if_neg hemp]
    by_cases h2 : (readLoop readF audioEx
        (sortByBaseOrder s (entries.filter isCandidateTranscript))).isEmpty
    · rw [if_pos h2]
      constructor
      · intro doc hdoc
        exact absurd hdoc (by simp)
      · constructor
        · intro _
          exact (readLoop_eq_nil_iff readF audioEx _).mp (List.isEmpty_iff.mp h2)
        · intro _
          rfl
    · rw [if_neg h2]
      constructor
      · intro doc hdoc
        have hdoc2 : doc = (unified_file_name s t,
            readLoop readF audioEx
              (sortByBaseOrder s (entries.filter isCandidateTranscript))) :=
          (Option.some_inj.mp hdoc).symm
        rw [hdoc2]
        exact ⟨rfl, readLoop_eq_readableSections readF audioEx _⟩
      · constructor
        · intro hnone
          exact absurd hnone (by simp)
        · intro hall
          exfalso
          exact h2 (by
            rw [(readLoop_eq_nil_iff readF audioEx _).mpr hall]
            rfl)

/-- Folder listing used by the C10 witness. -/
def wEntries : List String :=
  ["x.m4a", "b.txt", "a.txt", "unified_transcript_asc_0.txt"]

/-- Read behavior used by the C10 witness: reading `a.txt` raises,
everything else succeeds. -/
def wRead (f : String) : Except String String :=
  if f = "a.txt" then Except.error "io" else Except.ok "body"

/-- Witness for C10 at a concrete folder where one of two sorted
candidates is unreadable: the document is still written, containing
exactly the readable candidate. -/
theorem unify_tolerates_unreadable_witness :
    unify_transcripts wEntries wRead (fun _ => false) "asc" "20250103_000000" =
      some ("unified_transcript_asc_20250103_000000.txt",
        [⟨"Unknown", "b", "body", 0⟩]) ∧
    ("unified_transcript_asc_20250103_000000.txt" =
        unified_file_name "asc" "20250103_000000" ∧
      [(⟨"Unknown", "b", "body", 0⟩ : TSection)] =
        readableSections wRead (fun _ => false)
          (sortByBaseOrder "asc" (wEntries.filter isCandidateTranscript))) :=
  ⟨by decide,
    (unify_tolerates_unreadable wEntries wRead (fun _ => false) "asc" "20250103_000000").1
      ("unified_transcript_asc_20250103_000000.txt", [⟨"Unknown", "b", "body", 0⟩])
      (by decide)⟩
